import Mathlib

/-!
Shallow embedding of the FitTrack authentication and scoped persistence
layer: the hardened Express server embedded in SECURITY_REVIEW.md
(auth handlers, verifyToken middleware, user-scoped data routes,
export/import routes), the shared validation module, the fetch-based
client API layer, and the client session manager from AuthContext.tsx.
-/

namespace FitTrack

/-- Characters admitted by the sanitizer character class [a-zA-Z0-9_-]
in getKeyPath. -/
def allowedChar (c : Char) : Bool :=
  ('a' ≤ c && c ≤ 'z') || ('A' ≤ c && c ≤ 'Z') ||
  ('0' ≤ c && c ≤ '9') || c = '_' || c = '-'

/-- The regex replace in getKeyPath: every character outside
[a-zA-Z0-9_-] becomes an underscore. -/
def sanitize (s : String) : String :=
  String.mk (s.data.map (fun c => if allowedChar c then c else '_'))

/-- getKeyPath: the file name, within the data directory, used to store
one key. -/
def getKeyPath (key : String) : String :=
  sanitize key ++ ".json"

/-- The user-scoped key built by the protected data handlers before
calling getKeyPath. -/
def scopedKey (userId key : String) : String :=
  "user-" ++ userId ++ "-" ++ key

/-- The contents of the data directory, as a map from file name to the
stored JSON value. -/
def Store (A : Type) : Type := String → Option A

def emptyStore {A : Type} : Store A := fun _ => none

/-- writeFileSync to a temp file followed by renameSync: atomically
replace the contents of one file. -/
def writeFile {A : Type} (st : Store A) (file : String) (v : A) : Store A :=
  fun g => if g = file then some v else st g

/-- Outcome of one data route, mirroring the handler responses. -/
inductive DataRes (A : Type) where
  | notFound
  | missingData
  | ok (v : A)
  deriving DecidableEq

/-- The GET /api/data/:key handler body, after verifyToken has resolved
the caller's userId. -/
def getData {A : Type} (st : Store A) (userId key : String) : DataRes A :=
  match st (getKeyPath (scopedKey userId key)) with
  | none => DataRes.notFound
  | some v => DataRes.ok v

/-- The PUT /api/data/:key handler body, after verifyToken has resolved
the caller's userId; the request body may lack the data field. -/
def putData {A : Type} (st : Store A) (userId key : String) (body : Option A) :
    DataRes A × Store A :=
  match body with
  | none => (DataRes.missingData, st)
  | some v => (DataRes.ok v, writeFile st (getKeyPath (scopedKey userId key)) v)

/-- Shape of the ids produced by crypto.randomUUID at signup: exactly 36
characters, all within the sanitizer-safe character set. -/
def generatedIdShape (s : String) : Bool :=
  s.length == 36 && s.data.all allowedChar

/-- Does the pattern occur at the head of the list. -/
def leadsWith : List Char → List Char → Bool
  | [], _ => true
  | _ :: _, [] => false
  | p :: ps, c :: cs => p == c && leadsWith ps cs

/-- JavaScript String.replace with a string pattern: rewrite only the
first occurrence of the pattern, leaving the rest untouched. -/
def replaceFirstL (pat repl : List Char) : List Char → List Char
  | [] => if leadsWith pat [] then repl else []
  | c :: cs =>
    if leadsWith pat (c :: cs) then repl ++ (c :: cs).drop pat.length
    else c :: replaceFirstL pat repl cs

def replaceFirstStr (pat repl s : String) : String :=
  String.mk (replaceFirstL pat.data repl.data s.data)

/-- The two 401 responses produced by the verifyToken middleware. -/
inductive AuthErr where
  | missingToken
  | invalidToken
  deriving DecidableEq

/-- The verifyToken middleware. The jwtVer argument abstracts
jwt.verify(token, JWT_SECRET): it returns the decoded userId exactly for
a validly signed, unexpired token string. -/
def verifyTokenMw (jwtVer : String → Option String) (authHeader : Option String) :
    Except AuthErr String :=
  match authHeader with
  | none => Except.error AuthErr.missingToken
  | some h =>
    let token := replaceFirstStr "Bearer " "" h
    if token = "" then Except.error AuthErr.missingToken
    else
      match jwtVer token with
      | some uid => Except.ok uid
      | none => Except.error AuthErr.invalidToken

/-- Symbolic stand-in for the bcryptjs digest of a plaintext password:
deterministic and injective, verified by bcryptCompare exactly when it
was computed from the same plaintext. Models the bcryptjs hash/compare
contract used by the signup and login handlers. -/
def bcryptHash (plaintext : String) : String :=
  "$2b$10$" ++ plaintext

/-- Models bcryptjs.compare: succeeds exactly when the stored digest was
produced from the given plaintext. -/
def bcryptCompare (plaintext digest : String) : Bool :=
  digest == bcryptHash plaintext

/-- One record of the users.json credential store. -/
structure StoredUser where
  id : String
  email : String
  userName : String
  passwordHash : String
  createdAt : Nat
  deriving DecidableEq

/-- The user object embedded in signup, login and verify responses. -/
structure PublicUser where
  id : String
  email : String
  userName : String
  createdAt : Nat
  deriving DecidableEq

/-- The payload signed by jwt.sign with a seven day expiry. -/
structure SignedToken where
  userId : String
  iat : Nat
  exp : Nat
  deriving DecidableEq

/-- jwt.sign of the userId with JWT_SECRET and expiresIn seven days. -/
def issueToken (userId : String) (now : Nat) : SignedToken :=
  SignedToken.mk userId now (now + 7 * 24 * 60 * 60 * 1000)

/-- An error response: HTTP status plus the error field of the body. -/
structure HttpError where
  status : Nat
  errorMsg : String
  deriving DecidableEq

namespace PASSWORD_VALIDATION

def MIN_LENGTH : Nat := 6

def MIN_LENGTH_ERROR : String := "Password must be at least 6 characters"

end PASSWORD_VALIDATION

/-- email.toLowerCase: lower each character. -/
def toLowerStr (s : String) : String :=
  String.mk (s.data.map Char.toLower)

/-- findUserByEmail: scan the stored users for one whose email equals
the lowercased query. -/
def findUserByEmail (users : List StoredUser) (email : String) :
    Option StoredUser :=
  users.find? (fun u => u.email == toLowerStr email)

/-- findUserById: the users record is keyed by id. -/
def findUserById (users : List StoredUser) (uid : String) :
    Option StoredUser :=
  users.find? (fun u => u.id == uid)

/-- The POST /api/auth/signup handler. freshId models crypto.randomUUID
and now models Date.now. On success the updated users list is persisted
by saveUsers and a 201 response carries the public user and a token. -/
def signup (users : List StoredUser) (email password userName freshId : String)
    (now : Nat) :
    Except HttpError (PublicUser × SignedToken) × List StoredUser :=
  if email = "" || password = "" || userName = "" then
    (Except.error (HttpError.mk 400 "Missing required fields"), users)
  else if password.length < PASSWORD_VALIDATION.MIN_LENGTH then
    (Except.error (HttpError.mk 400 PASSWORD_VALIDATION.MIN_LENGTH_ERROR), users)
  else if (findUserByEmail users email).isSome then
    (Except.error (HttpError.mk 409 "User already exists"), users)
  else
    (Except.ok (PublicUser.mk freshId (toLowerStr email) userName now,
                issueToken freshId now),
     users ++ [StoredUser.mk freshId (toLowerStr email) userName
                 (bcryptHash password) now])

/-- The POST /api/auth/login handler. -/
def login (users : List StoredUser) (email password : String) (now : Nat) :
    Except HttpError (PublicUser × SignedToken) :=
  if email = "" || password = "" then
    Except.error (HttpError.mk 400 "Missing email or password")
  else
    match findUserByEmail users email with
    | none => Except.error (HttpError.mk 401 "Invalid credentials")
    | some u =>
      if bcryptCompare password u.passwordHash then
        Except.ok (PublicUser.mk u.id u.email u.userName u.createdAt,
                   issueToken u.id now)
      else Except.error (HttpError.mk 401 "Invalid credentials")

/-- Parsed JSON values, as stored in the data directory and carried in
request and response bodies. -/
inductive JVal where
  | jnull
  | jbool (b : Bool)
  | jnum (n : Nat)
  | jstr (s : String)
  | jarr (xs : List JVal)
  | jobj (fields : List (String × JVal))

/-- Does the value contain the given string anywhere, searching nested
objects and arrays down to the given depth. -/
def jvalHasStr (needle : String) : Nat → JVal → Bool
  | 0, _ => false
  | Nat.succ fuel, v =>
    match v with
    | JVal.jstr s => s == needle
    | JVal.jarr xs => xs.any (fun x => jvalHasStr needle fuel x)
    | JVal.jobj fs => fs.any (fun p => jvalHasStr needle fuel p.2)
    | _ => false

/-- JavaScript truthiness of a parsed JSON value. -/
def jsTruthy : JVal → Bool
  | JVal.jnull => false
  | JVal.jbool b => b
  | JVal.jnum n => n != 0
  | JVal.jstr s => s != ""
  | JVal.jarr _ => true
  | JVal.jobj _ => true

/-- Object.entries for a value of JavaScript type object: field list for
objects, index-keyed list for arrays, nothing otherwise. -/
def jsObjectEntries : JVal → Option (List (String × JVal))
  | JVal.jobj fs => some fs
  | JVal.jarr xs => some (xs.enum.map (fun p => (toString p.1, p.2)))
  | _ => none

/-- The error body written by res.json on a failed request. -/
def errBody (msg : String) : JVal :=
  JVal.jobj [("success", JVal.jbool false), ("error", JVal.jstr msg)]

/-- The contents of the data directory as a list of named .json files. -/
abbrev FileStore : Type := List (String × JVal)

/-- writeFileSync: replace the named file in place, or create it. -/
def writeFileL : FileStore → String → JVal → FileStore
  | [], n, v => [(n, v)]
  | p :: rest, n, v =>
    if p.1 = n then (n, v) :: rest else p :: writeFileL rest n v

/-- file.endsWith check: the suffix, reversed, occurs at the head of
the reversed string. -/
def endsWithStr (s suffix : String) : Bool :=
  leadsWith suffix.data.reverse s.data.reverse

/-- JSON.stringify of one stored user record. -/
def userToJVal (u : StoredUser) : JVal :=
  JVal.jobj [("id", JVal.jstr u.id), ("email", JVal.jstr u.email),
             ("name", JVal.jstr u.userName),
             ("passwordHash", JVal.jstr u.passwordHash),
             ("createdAt", JVal.jnum u.createdAt)]

/-- JSON.stringify of the id-keyed users record. -/
def usersToJVal (users : List StoredUser) : JVal :=
  JVal.jobj (users.map (fun u => (u.id, userToJVal u)))

/-- saveUsers: persist the users record to users.json inside the data
directory. -/
def saveUsers (files : FileStore) (users : List StoredUser) : FileStore :=
  writeFileL files "users.json" (usersToJVal users)

/-- The POST /api/export route. It is registered with no verifyToken
middleware, so the auth header is never consulted: every .json file of
the data directory is decoded and returned. -/
def postExport (files : FileStore) (_authHeader : Option String) :
    Nat × JVal :=
  (200, JVal.jobj
    [("success", JVal.jbool true),
     ("data", JVal.jobj
       ((files.filter (fun p => endsWithStr p.1 ".json")).map
         (fun p => (replaceFirstStr ".json" "" p.1, p.2))))])

/-- The POST /api/import route. It is registered with no verifyToken
middleware, so the auth header is never consulted: every entry of the
body's data object is written under getKeyPath. -/
def postImport (files : FileStore) (_authHeader : Option String)
    (body : Option JVal) : (Nat × JVal) × FileStore :=
  match body with
  | none => ((400, errBody "Invalid data format"), files)
  | some d =>
    if !jsTruthy d then ((400, errBody "Invalid data format"), files)
    else
      match jsObjectEntries d with
      | none => ((400, errBody "Invalid data format"), files)
      | some entries =>
        ((200, JVal.jobj [("success", JVal.jbool true),
                          ("imported", JVal.jnum entries.length)]),
         entries.foldl (fun fs kv => writeFileL fs (getKeyPath kv.1) kv.2) files)

/-- const JWT_SECRET = process.env.JWT_SECRET or the hard-coded default;
the environment variable may be unset, and the empty string is falsy. -/
def jwtSecretConfig (env : Option String) : String :=
  match env with
  | some s =>
    if s = "" then "your-super-secret-key-change-in-production" else s
  | none => "your-super-secret-key-change-in-production"

/-- One request built by the fetch-based client layer. -/
structure FetchRequest where
  url : String
  method : String
  headers : List (String × String)
  hasBody : Bool
  deriving DecidableEq

def API_BASE_URL : String := "http://localhost:3000/api"

/-- The request built by apiGet in src/lib/api.ts: fetch with no
options, hence GET with no headers. -/
def apiGetRequest (key : String) : FetchRequest :=
  FetchRequest.mk (API_BASE_URL ++ "/data/" ++ key) "GET" [] false

/-- The request built by apiSet: PUT with only a Content-Type header. -/
def apiSetRequest (key : String) : FetchRequest :=
  FetchRequest.mk (API_BASE_URL ++ "/data/" ++ key) "PUT"
    [("Content-Type", "application/json")] true

/-- The request built by apiDelete: DELETE with no headers. -/
def apiDeleteRequest (key : String) : FetchRequest :=
  FetchRequest.mk (API_BASE_URL ++ "/data/" ++ key) "DELETE" [] false

/-- The request built by apiListKeys: GET with no headers. -/
def apiListKeysRequest : FetchRequest :=
  FetchRequest.mk (API_BASE_URL ++ "/keys") "GET" [] false

/-- The request built by verifyTokenFn in AuthContext.tsx: the one
client request that attaches an Authorization header. -/
def verifyRequest (token : String) : FetchRequest :=
  FetchRequest.mk (API_BASE_URL ++ "/auth/verify") "POST"
    [("Authorization", "Bearer " ++ token),
     ("Content-Type", "application/json")] false

def hasAuthHeader (r : FetchRequest) : Bool :=
  r.headers.any (fun p => p.1 == "Authorization")

/-- The durable client cache: the two localStorage slots read and
written by AuthContext (user stored as a JSON string, modeled parsed). -/
structure LocalCache where
  savedToken : Option String
  savedUser : Option PublicUser
  deriving DecidableEq

/-- The in-memory React state of AuthProvider. -/
structure SessionState where
  user : Option PublicUser
  token : Option String
  isLoading : Bool
  deriving DecidableEq

/-- isAuthenticated as computed by the AuthContext value. -/
def isAuthenticatedOf (s : SessionState) : Bool :=
  s.user.isSome && s.token.isSome

/-- The restoreSession effect run on mount: when both cached slots are
present the state is set optimistically, then the awaited verify call
(abstracted by the verify argument: some is a 2xx response, none is a
thrown failure) decides whether the catch block runs. The catch block
removes both localStorage slots and nothing else. -/
def restoreSession (cache : LocalCache)
    (verify : String → Option PublicUser) : SessionState × LocalCache :=
  match cache.savedToken, cache.savedUser with
  | some t, some pu =>
    match verify t with
    | some _ => (SessionState.mk (some pu) (some t) false, cache)
    | none =>
      (SessionState.mk (some pu) (some t) false, LocalCache.mk none none)
  | _, _ => (SessionState.mk none none false, cache)

/-- Concrete fixtures used by witnesses and counterexamples. -/
def exJwtVer : String → Option String :=
  fun s => if s = "h.p.s" then some "user-1" else none

def uuidA : String := "11111111-1111-1111-1111-111111111111"

def uuidB : String := "22222222-2222-2222-2222-222222222222"

def exUser : StoredUser :=
  StoredUser.mk "u-1" "a@example.com" "A" (bcryptHash "secret1") 0

def exUsers : List StoredUser := [exUser]

def exFiles : FileStore :=
  [("user-u1-workout-plans.json", JVal.jstr "plans"),
   ("users.json", usersToJVal exUsers)]

def exPublicUser : PublicUser := PublicUser.mk "u-1" "a@example.com" "A" 0

def exCache : LocalCache := LocalCache.mk (some "tok0") (some exPublicUser)

def exVerifyFail : String → Option PublicUser := fun _ => none

/-- The users list produced by one concrete successful signup. -/
def exSignedUpUsers : List StoredUser :=
  (signup [] "a@example.com" "secret1" "A" "u-1" 0).2

theorem str_ext {s t : String} (h : s.data = t.data) : s = t := by
  cases s
  cases t
  exact congrArg String.mk h

theorem sanitize_append (a b : String) :
    sanitize (a ++ b) = sanitize a ++ sanitize b := by
  apply str_ext
  simp [sanitize, String.data_append, List.map_append]

theorem map_sanitizeChar_fixed {l : List Char}
    (h : ∀ c ∈ l, allowedChar c = true) :
    l.map (fun c => if allowedChar c then c else '_') = l := by
  induction l with
  | nil => rfl
  | cons c cs ih =>
    simp only [List.map_cons]
    rw [if_pos (h c (List.mem_cons_self c cs)),
        ih (fun x hx => h x (List.mem_cons_of_mem c hx))]

theorem sanitize_fixed {s : String} (h : ∀ c ∈ s.data, allowedChar c = true) :
    sanitize s = s := by
  apply str_ext
  simp only [sanitize]
  exact map_sanitizeChar_fixed h

theorem str_len_data (s : String) : s.length = s.data.length := rfl

theorem generatedIdShape_length {s : String} (h : generatedIdShape s = true) :
    s.data.length = 36 := by
  have h1 := (Bool.and_eq_true _ _).mp h
  have h2 : s.length = 36 := by
    have h3 := h1.1
    simpa [beq_iff_eq] using h3
  exact h2

theorem generatedIdShape_chars {s : String} (h : generatedIdShape s = true) :
    ∀ c ∈ s.data, allowedChar c = true := by
  have h1 := (Bool.and_eq_true _ _).mp h
  intro c hc
  exact List.all_eq_true.mp h1.2 c hc

theorem keyPath_injective_on_ids {a b : String} (k : String)
    (ha : generatedIdShape a = true) (hb : generatedIdShape b = true)
    (hne : a ≠ b) :
    getKeyPath (scopedKey a k) ≠ getKeyPath (scopedKey b k) := by
  intro h
  apply hne
  have hsa : sanitize a = a := sanitize_fixed (generatedIdShape_chars ha)
  have hsb : sanitize b = b := sanitize_fixed (generatedIdShape_chars hb)
  have hdata := congrArg String.data h
  simp only [getKeyPath, String.data_append] at hdata
  have h1 : (sanitize (scopedKey a k)).data = (sanitize (scopedKey b k)).data :=
    List.append_inj_left hdata (by
      have l1 := congrArg String.length h
      simp only [getKeyPath, String.length_append] at l1
      have e1 : (sanitize (scopedKey a k)).length = (sanitize (scopedKey a k)).data.length := rfl
      have e2 : (sanitize (scopedKey b k)).length = (sanitize (scopedKey b k)).data.length := rfl
      omega)
  have h2 : sanitize (scopedKey a k) = sanitize (scopedKey b k) := str_ext h1
  simp only [scopedKey, sanitize_append, hsa, hsb] at h2
  have hdat := congrArg String.data h2
  simp only [String.data_append] at hdat
  have hla : a.data.length = 36 := generatedIdShape_length ha
  have hlb : b.data.length = 36 := generatedIdShape_length hb
  have step1 :
      (sanitize "user-").data ++ a.data ++ (sanitize "-").data =
      (sanitize "user-").data ++ b.data ++ (sanitize "-").data :=
    List.append_inj_left hdat (by simp only [List.length_append]; omega)
  have step2 :
      (sanitize "user-").data ++ a.data = (sanitize "user-").data ++ b.data :=
    List.append_inj_left step1 (by simp only [List.length_append]; omega)
  have step3 : a.data = b.data := List.append_inj_right step2 rfl
  exact str_ext step3

/-- C1: cross-user isolation of the scoped key-value store. For two
distinct generated identity ids and the same logical key, a set by the
first user, then a set by the second user, then a get by the first user
returns the first value and never the second, because each data handler
resolves only the physical key derived from the caller's own resolved
id prefixed to the logical key. -/
theorem C1_crossUserIsolation {A : Type} (st : Store A) (ida idb k : String)
    (v1 v2 : A)
    (ha : generatedIdShape ida = true) (hb : generatedIdShape idb = true)
    (hne : ida ≠ idb) :
    getData (putData (putData st ida k (some v1)).2 idb k (some v2)).2 ida k =
      DataRes.ok v1 ∧
    (v1 ≠ v2 →
      getData (putData (putData st ida k (some v1)).2 idb k (some v2)).2 ida k ≠
        DataRes.ok v2) := by
  have hfile := keyPath_injective_on_ids k ha hb hne
  have h1 : getData (putData (putData st ida k (some v1)).2 idb k (some v2)).2
      ida k = DataRes.ok v1 := by
    simp only [putData, getData, writeFile]
    rw [if_neg hfile]
    simp
  refine ⟨h1, ?_⟩
  intro hv h2
  rw [h1] at h2
  apply hv
  injection h2

theorem C1_crossUserIsolation_witness :
    generatedIdShape uuidA = true ∧ generatedIdShape uuidB = true ∧
    uuidA ≠ uuidB ∧
    getData (putData (putData (emptyStore : Store Nat) uuidA "workout-plans"
        (some 1)).2 uuidB "workout-plans" (some 2)).2 uuidA "workout-plans" =
      DataRes.ok 1 :=
  ⟨by decide, by decide, by decide,
   (C1_crossUserIsolation emptyStore uuidA uuidB "workout-plans" 1 2
     (by decide) (by decide) (by decide)).1⟩

/-- C10: key sanitization collapses distinct logical keys. For one
identity, two logical keys whose sanitized forms agree resolve to the
same physical record: a set under the first followed by a get under the
second returns the value just written, and a later set under the second
overwrites what a get under the first then returns. -/
theorem C10_sanitizeCollapses {A : Type} (st : Store A) (uid k1 k2 : String)
    (v w : A) (hk : sanitize k1 = sanitize k2) :
    getData (putData st uid k1 (some v)).2 uid k2 = DataRes.ok v ∧
    getData (putData (putData st uid k1 (some v)).2 uid k2 (some w)).2 uid k1 =
      DataRes.ok w := by
  have hfile : getKeyPath (scopedKey uid k1) = getKeyPath (scopedKey uid k2) := by
    simp only [getKeyPath, scopedKey, sanitize_append, hk]
  constructor
  · simp only [putData, getData, writeFile]
    rw [← hfile]
    simp
  · simp only [putData, getData, writeFile]
    rw [hfile]
    simp

theorem C10_sanitizeCollapses_witness :
    sanitize "a.b" = sanitize "a?b" ∧
    getData (putData (emptyStore : Store Nat) "u-1" "a.b" (some 7)).2
      "u-1" "a?b" = DataRes.ok 7 :=
  ⟨by decide,
   (C10_sanitizeCollapses emptyStore "u-1" "a.b" "a?b" 7 8 (by decide)).1⟩

theorem mem_of_leadsWith {p s : List Char} (h : leadsWith p s = true) :
    ∀ c ∈ p, c ∈ s := by
  induction p generalizing s with
  | nil =>
    intro c hc
    cases hc
  | cons q qs ih =>
    cases s with
    | nil => simp [leadsWith] at h
    | cons d ds =>
      simp only [leadsWith, Bool.and_eq_true, beq_iff_eq] at h
      intro c hc
      rcases List.mem_cons.mp hc with hcq | hc2
      · rw [hcq, h.1]
        exact List.mem_cons_self d ds
      · exact List.mem_cons_of_mem d (ih h.2 c hc2)

theorem leadsWith_append (p t : List Char) : leadsWith p (p ++ t) = true := by
  induction p with
  | nil => rfl
  | cons c cs ih => simp [leadsWith, ih]

theorem replaceFirstL_append (p r t : List Char) :
    replaceFirstL p r (p ++ t) = r ++ t := by
  cases p with
  | nil =>
    cases t with
    | nil => simp [replaceFirstL, leadsWith]
    | cons c cs => simp [replaceFirstL, leadsWith]
  | cons c cs =>
    have hl : leadsWith (c :: cs) ((c :: cs) ++ t) = true := leadsWith_append _ _
    simp only [List.cons_append] at hl ⊢
    rw [replaceFirstL, if_pos hl]
    simp only [List.length_cons, List.drop_succ_cons]
    rw [List.drop_left]

theorem replaceFirstL_no_space {t : List Char} (hsp : ' ' ∉ t) :
    replaceFirstL ("Bearer ".data) [] t = t := by
  induction t with
  | nil => simp [replaceFirstL, leadsWith]
  | cons c cs ih =>
    have hlw : leadsWith ("Bearer ".data) (c :: cs) = false := by
      cases hb : leadsWith ("Bearer ".data) (c :: cs) with
      | false => rfl
      | true => exact absurd (mem_of_leadsWith hb ' ' (by decide)) hsp
    rw [replaceFirstL, if_neg (by simp [hlw])]
    have hsp2 : ' ' ∉ cs := fun hmem => hsp (List.mem_cons_of_mem c hmem)
    rw [ih hsp2]

theorem strip_bearer (t : String) :
    replaceFirstStr "Bearer " "" ("Bearer " ++ t) = t := by
  apply str_ext
  show replaceFirstL ("Bearer ".data) ("".data)
    (("Bearer " : String) ++ t).data = t.data
  rw [String.data_append]
  exact replaceFirstL_append _ _ _

theorem strip_id (t : String) (hsp : ' ' ∉ t.data) :
    replaceFirstStr "Bearer " "" t = t := by
  apply str_ext
  show replaceFirstL ("Bearer ".data) ("".data) t.data = t.data
  exact replaceFirstL_no_space hsp

/-- C9: the request authorizer does not require the Bearer scheme. For
any token the abstracted jwt.verify accepts, the verifyToken middleware
authenticates the request whether the Authorization header carries the
literal Bearer prefix or the bare token, because it only strips an
optional first occurrence of the Bearer substring (a signed compact
token contains no space, so a bare token passes through unchanged). -/
theorem C9_bearerOptional (jwtVer : String → Option String) (t uid : String)
    (hver : jwtVer t = some uid) (hsp : ' ' ∉ t.data) (hne : t ≠ "") :
    verifyTokenMw jwtVer (some ("Bearer " ++ t)) = Except.ok uid ∧
    verifyTokenMw jwtVer (some t) = Except.ok uid := by
  constructor
  · simp only [verifyTokenMw, strip_bearer]
    rw [if_neg hne]
    simp [hver]
  · simp only [verifyTokenMw, strip_id t hsp]
    rw [if_neg hne]
    simp [hver]

theorem C9_bearerOptional_witness :
    exJwtVer "h.p.s" = some "user-1" ∧
    verifyTokenMw exJwtVer (some "Bearer h.p.s") = Except.ok "user-1" ∧
    verifyTokenMw exJwtVer (some "h.p.s") = Except.ok "user-1" := by
  have h := C9_bearerOptional exJwtVer "h.p.s" "user-1"
    (by decide) (by decide) (by decide)
  refine ⟨by decide, ?_, h.2⟩
  have happ : (("Bearer " : String) ++ "h.p.s") = "Bearer h.p.s" := by decide
  rw [← happ]
  exact h.1

theorem bcryptHash_inj {p q : String} (h : bcryptHash p = bcryptHash q) :
    p = q := by
  have hd := congrArg String.data h
  simp only [bcryptHash, String.data_append] at hd
  exact str_ext (List.append_inj_right hd rfl)

/-- C4: account-enumeration resistance of login. For a registered user,
login with that user's email and an incorrect password produces exactly
the same error value, status 401 with the generic invalid-credentials
payload, as login with an email that was never registered. -/
theorem C4_loginEnumeration (users : List StoredUser) (u : StoredUser)
    (e1 p1 e2 p2 pw : String) (now1 now2 : Nat)
    (hfind : findUserByEmail users e1 = some u)
    (hhash : u.passwordHash = bcryptHash pw)
    (hwrong : p1 ≠ pw)
    (habsent : findUserByEmail users e2 = none)
    (he1 : e1 ≠ "") (hp1 : p1 ≠ "") (he2 : e2 ≠ "") (hp2 : p2 ≠ "") :
    login users e1 p1 now1 = login users e2 p2 now2 ∧
    login users e1 p1 now1 =
      Except.error (HttpError.mk 401 "Invalid credentials") := by
  have hcmp : bcryptCompare p1 u.passwordHash = false := by
    simp only [bcryptCompare, hhash, beq_eq_false_iff_ne]
    intro hcontra
    exact hwrong (bcryptHash_inj hcontra).symm
  have h1 : login users e1 p1 now1 =
      Except.error (HttpError.mk 401 "Invalid credentials") := by
    simp only [login]
    rw [if_neg (by simp [he1, hp1]), hfind]
    simp [hcmp]
  have h2 : login users e2 p2 now2 =
      Except.error (HttpError.mk 401 "Invalid credentials") := by
    simp only [login]
    rw [if_neg (by simp [he2, hp2]), habsent]
  exact ⟨h1.trans h2.symm, h1⟩

theorem C4_loginEnumeration_witness :
    findUserByEmail exUsers "a@example.com" = some exUser ∧
    login exUsers "a@example.com" "wrong" 0 =
      login exUsers "nouser@example.com" "anything" 0 ∧
    login exUsers "a@example.com" "wrong" 0 =
      Except.error (HttpError.mk 401 "Invalid credentials") := by
  have h := C4_loginEnumeration exUsers exUser "a@example.com" "wrong"
    "nouser@example.com" "anything" "secret1" 0 0 (by decide) (by decide)
    (by decide) (by decide) (by decide) (by decide) (by decide) (by decide)
  exact ⟨by decide, h.1, h.2⟩

/-- C5 counterexample: a triple meeting the claim's stated hypotheses,
password of length at least six and an email never registered, on which
signup does not succeed: the empty display name hits the falsy
missing-fields check and the handler answers 400. -/
theorem C5_roundTrip_cex :
    (PASSWORD_VALIDATION.MIN_LENGTH ≤ "secret1".length ∧
     findUserByEmail [] "a@example.com" = none) ∧
    (signup [] "a@example.com" "secret1" "" "u-1" 0).1 =
      Except.error (HttpError.mk 400 "Missing required fields") := by
  exact ⟨⟨by decide, by decide⟩, by rfl⟩

/-- C5 (amended): the signup and login round trip holds once email and
display name are also nonempty: with password length at least the
six-character minimum and the email not previously registered after
lowercase normalization, signup succeeds, and a subsequent login with
the same email and password succeeds because the stored bcrypt digest
verifies the original plaintext and the normalized email lookup finds
the stored identity. -/
theorem C5_signupLoginRoundTrip (users : List StoredUser)
    (email password userName freshId : String) (now now2 : Nat)
    (he : email ≠ "") (hn : userName ≠ "")
    (hp : PASSWORD_VALIDATION.MIN_LENGTH ≤ password.length)
    (hfresh : findUserByEmail users email = none) :
    (signup users email password userName freshId now).1 =
      Except.ok (PublicUser.mk freshId (toLowerStr email) userName now,
                 issueToken freshId now) ∧
    login (signup users email password userName freshId now).2
        email password now2 =
      Except.ok (PublicUser.mk freshId (toLowerStr email) userName now,
                 issueToken freshId now2) := by
  have hpne : password ≠ "" := by
    intro hcontra
    rw [hcontra] at hp
    simp [PASSWORD_VALIDATION.MIN_LENGTH] at hp
  have hlen : ¬ password.length < PASSWORD_VALIDATION.MIN_LENGTH :=
    Nat.not_lt.mpr hp
  have hsfull : signup users email password userName freshId now =
      (Except.ok (PublicUser.mk freshId (toLowerStr email) userName now,
                  issueToken freshId now),
       users ++ [StoredUser.mk freshId (toLowerStr email) userName
                   (bcryptHash password) now]) := by
    simp only [signup]
    rw [if_neg (by simp [he, hpne, hn]), if_neg hlen,
        if_neg (by simp [hfresh])]
  have hfind2 : findUserByEmail
      (users ++ [StoredUser.mk freshId (toLowerStr email) userName
                   (bcryptHash password) now]) email =
      some (StoredUser.mk freshId (toLowerStr email) userName
              (bcryptHash password) now) := by
    simp only [findUserByEmail] at hfresh ⊢
    rw [List.find?_append, hfresh]
    simp [List.find?]
  refine ⟨by rw [hsfull], ?_⟩
  rw [hsfull]
  simp only [login]
  rw [if_neg (by simp [he, hpne]), hfind2]
  simp [bcryptCompare]

theorem C5_signupLoginRoundTrip_witness :
    ("a@example.com" : String) ≠ "" ∧ ("A" : String) ≠ "" ∧
    PASSWORD_VALIDATION.MIN_LENGTH ≤ "secret1".length ∧
    findUserByEmail [] "a@example.com" = none ∧
    (signup [] "a@example.com" "secret1" "A" "u-1" 0).1 =
      Except.ok (PublicUser.mk "u-1" (toLowerStr "a@example.com") "A" 0,
                 issueToken "u-1" 0) ∧
    login (signup [] "a@example.com" "secret1" "A" "u-1" 0).2
        "a@example.com" "secret1" 5 =
      Except.ok (PublicUser.mk "u-1" (toLowerStr "a@example.com") "A" 0,
                 issueToken "u-1" 5) := by
  have h := C5_signupLoginRoundTrip [] "a@example.com" "secret1" "A" "u-1"
    0 5 (by decide) (by decide) (by decide) (by decide)
  exact ⟨by decide, by decide, by decide, by decide, h.1, h.2⟩

/-- C2 (demonstrating the defect): the export and import routes are
registered without the verifyToken gate. A POST /api/export request
carrying no Authorization header is answered 200 with all stored data
rather than 401, and a POST /api/import request carrying no
Authorization header succeeds and mutates the stored data. -/
theorem C2_exportImportUngated :
    (postExport exFiles none).1 = 200 ∧
    jvalHasStr "plans" 5 (postExport exFiles none).2 = true ∧
    (postImport exFiles none
      (some (JVal.jobj [("injected", JVal.jstr "evil")]))).1.1 = 200 ∧
    (postImport exFiles none
      (some (JVal.jobj [("injected", JVal.jstr "evil")]))).2 =
      exFiles ++ [("injected.json", JVal.jstr "evil")] := by
  exact ⟨rfl, by rfl, rfl, by rfl⟩

/-- C3 (demonstrating the defect): after a signup persists the users
record into the data directory, the unauthenticated export response
body contains the stored passwordHash value, so the hash is transmitted
to a client. -/
theorem C3_passwordHashLeaks :
    (postExport (saveUsers [] exSignedUpUsers) none).1 = 200 ∧
    jvalHasStr (bcryptHash "secret1") 6
      (postExport (saveUsers [] exSignedUpUsers) none).2 = true := by
  exact ⟨rfl, by rfl⟩

/-- C6 counterexample: the requests the client data layer builds carry
no Authorization header at all, token held or not. -/
theorem C6_bearerAttached_cex :
    hasAuthHeader (apiGetRequest "workout-plans") = false ∧
    hasAuthHeader (apiSetRequest "workout-plans") = false ∧
    hasAuthHeader apiListKeysRequest = false := by
  exact ⟨rfl, by rfl, rfl⟩

/-- C6 (amended): the data-layer client attaches no bearer credential
at all: for every key, the requests built by apiGet, apiSet, apiDelete
and apiListKeys carry no Authorization header and take no token input,
so they are sent unauthenticated whether or not a token is held; the
only client request that attaches the held token as an Authorization
Bearer credential is the session verify request built in AuthContext.-/
theorem C6_clientRequestsUnauthenticated (key : String) :
    hasAuthHeader (apiGetRequest key) = false ∧
    hasAuthHeader (apiSetRequest key) = false ∧
    hasAuthHeader (apiDeleteRequest key) = false ∧
    hasAuthHeader apiListKeysRequest = false ∧
    (∀ t : String, (verifyRequest t).headers =
      [("Authorization", "Bearer " ++ t),
       ("Content-Type", "application/json")]) := by
  exact ⟨rfl, by rfl, rfl, rfl, fun t => rfl⟩

/-- C7 counterexample: with a cached session present and the server
verification failing, the restore flow clears the durable cache but the
in-memory identity and token survive, so the provider does not end in
the logged-out state: isAuthenticated remains true. -/
theorem C7_restoreClears_cex :
    restoreSession exCache exVerifyFail =
      (SessionState.mk (some exPublicUser) (some "tok0") false,
       LocalCache.mk none none) ∧
    isAuthenticatedOf (restoreSession exCache exVerifyFail).1 = true := by
  exact ⟨rfl, rfl⟩

/-- C7 (amended): when a cached identity and token are found and the
subsequent server-side verification fails, the restore flow removes
both durable cache slots, but the in-memory identity and token set
optimistically before the verify call stay in place, so the provider
ends with isAuthenticated true rather than in the logged-out state. -/
theorem C7_restoreClearsCacheOnly (cache : LocalCache)
    (verify : String → Option PublicUser) (t : String) (pu : PublicUser)
    (htok : cache.savedToken = some t) (husr : cache.savedUser = some pu)
    (hfail : verify t = none) :
    restoreSession cache verify =
      (SessionState.mk (some pu) (some t) false, LocalCache.mk none none) ∧
    isAuthenticatedOf (restoreSession cache verify).1 = true := by
  have h : restoreSession cache verify =
      (SessionState.mk (some pu) (some t) false, LocalCache.mk none none) := by
    simp only [restoreSession, htok, husr, hfail]
  refine ⟨h, ?_⟩
  rw [h]
  rfl

theorem C7_restoreClearsCacheOnly_witness :
    exCache.savedToken = some "tok0" ∧
    exCache.savedUser = some exPublicUser ∧
    exVerifyFail "tok0" = none ∧
    isAuthenticatedOf (restoreSession exCache exVerifyFail).1 = true := by
  have h := C7_restoreClearsCacheOnly exCache exVerifyFail "tok0"
    exPublicUser rfl rfl rfl
  exact ⟨rfl, rfl, rfl, h.2⟩

/-- C8 (demonstrating the defect): with the JWT_SECRET environment
variable unset, or set to the falsy empty string, the server does not
fail fast at startup: the signing secret silently becomes the
hard-coded default value. -/
theorem C8_secretDefaultsSilently :
    jwtSecretConfig none = "your-super-secret-key-change-in-production" ∧
    jwtSecretConfig (some "") = "your-super-secret-key-change-in-production" := by
  exact ⟨rfl, by rfl⟩

end FitTrack
